import Mathlib

/-
Verification of the supa-flow-fetch streaming client (src/unnamed/part_000).
The client (class SupaFlow) incrementally parses text/event-stream framing,
keeps a connection state machine with retry backoff, a bounded history
buffer, an event dispatcher with include/exclude filtering and a transformer
pipeline, and optional batching.  The definitions below are a shallow
embedding of those source functions; timestamps (Date.now), timers and the
external fetch transport are abstracted as inputs, everything else follows
the source line by line.
-/

namespace SupaFlow

/-! ## JavaScript string primitives used by the parser -/

/-- Whitespace as recognised by JS String.prototype.trim (restricted to the
ASCII range actually reachable through event-stream framing). -/
def jsWhitespace (c : Char) : Bool :=
  c == ' ' || c == '\t' || c == '\n' || c == '\r' || c == '\x0b' || c == '\x0c'

/-- JS String.prototype.trim. -/
def jsTrim (s : String) : String :=
  String.mk (((s.data.dropWhile jsWhitespace).reverse.dropWhile jsWhitespace).reverse)

/-- Value of a list of decimal digit characters. -/
def digitsToNat (l : List Char) : Nat :=
  l.foldl (fun acc c => acc * 10 + (c.toNat - '0'.toNat)) 0

/-- JS parseInt(value, 10): skip leading whitespace, optional sign, then the
longest prefix of decimal digits; NaN (none) when no digit follows. -/
def jsParseInt (s : String) : Option Int :=
  let l := s.data.dropWhile jsWhitespace
  match l with
  | '-' :: rest =>
    let d := rest.takeWhile Char.isDigit
    if d.isEmpty then none else some (-(digitsToNat d : Int))
  | '+' :: rest =>
    let d := rest.takeWhile Char.isDigit
    if d.isEmpty then none else some (digitsToNat d)
  | _ =>
    let d := l.takeWhile Char.isDigit
    if d.isEmpty then none else some (digitsToNat d)

/-- JS String.prototype.indexOf(':') on the character list of a line. -/
def jsIndexOfColon : List Char → Option Nat
  | [] => none
  | c :: rest => if c = ':' then some 0 else (jsIndexOfColon rest).map (· + 1)

/-- JS String.prototype.split(/\r?\n/) on a character list: separators are
"\r\n" or "\n"; a lone '\r' is ordinary line content.  Always returns at
least one (possibly empty) line. -/
def splitLinesL : List Char → List (List Char)
  | [] => [[]]
  | '\r' :: '\n' :: rest => [] :: splitLinesL rest
  | '\n' :: rest => [] :: splitLinesL rest
  | c :: rest =>
    match splitLinesL rest with
    | [] => [[c]]
    | l :: ls => (c :: l) :: ls

/-- JS s.split(/\r?\n/). -/
def splitLines (s : String) : List String :=
  (splitLinesL s.data).map String.mk

/-! ## Frame parser (parseEventStream, source lines 165-210) -/

/-- Partial<EventMessage>: each field is a JS object key that may be absent. -/
structure EventMessage where
  id : Option String := none
  event : Option String := none
  data : Option String := none
  retry : Option Int := none
deriving DecidableEq, Repr

/-- Object.keys(message).length > 0 is false exactly when no field was set. -/
def msgIsEmpty (m : EventMessage) : Bool :=
  m.id.isNone && m.event.isNone && m.data.isNone && m.retry.isNone

/-- The switch on the field name (source lines 191-206):  id also updates the
client-level lastEventId; data accumulates with '\n' (JS truthiness: an empty
existing data string is replaced, not joined); retry is kept only when
parseInt succeeds; unknown fields are ignored. -/
def handleField (m : EventMessage) (lastId : Option String) (field value : String) :
    EventMessage × Option String :=
  if field = "id" then ({ m with id := some value }, some value)
  else if field = "event" then ({ m with event := some value }, lastId)
  else if field = "data" then
    ({ m with data := some (match m.data with
        | some s => if s = "" then value else s ++ "\n" ++ value
        | none => value) }, lastId)
  else if field = "retry" then
    (match jsParseInt value with
     | some k => { m with retry := some k }
     | none => m, lastId)
  else (m, lastId)

/-- The for-loop over the complete lines (source lines 175-207): a blank line
emits the in-progress message when it has at least one field; a line without
a colon is skipped; otherwise the line is split at the first colon, both
parts trimmed, and dispatched to handleField. -/
def processLines (lastId : Option String) (msg : EventMessage)
    (acc : List EventMessage) : List String → Option String × List EventMessage
  | [] => (lastId, acc)
  | line :: rest =>
    if line = "" then
      if msgIsEmpty msg then processLines lastId msg acc rest
      else processLines lastId {} (acc ++ [msg]) rest
    else
      match jsIndexOfColon line.data with
      | none => processLines lastId msg acc rest
      | some i =>
        let field := jsTrim (String.mk (line.data.take i))
        let value := jsTrim (String.mk (line.data.drop (i + 1)))
        let r := handleField msg lastId field value
        processLines r.2 r.1 acc rest

/-- Result of one parseEventStream call: the retained carry-over buffer, the
updated client-level lastEventId, and the messages completed in this call. -/
structure ParseResult where
  messageBuffer : String
  lastEventId : Option String
  messages : List EventMessage
deriving DecidableEq, Repr

/-- parseEventStream (source lines 165-210): append the chunk to the carry
buffer, split into lines, pop the last (possibly incomplete) line back into
the carry buffer, and fold the complete lines.  The in-progress message is a
local variable of the call, exactly as in the source. -/
def parseEventStream (messageBuffer : String) (lastEventId : Option String)
    (chunk : String) : ParseResult :=
  let buf := messageBuffer ++ chunk
  let lines := splitLines buf
  let carry := lines.getLast?.getD ""
  let complete := lines.dropLast
  let r := processLines lastEventId {} [] complete
  ⟨carry, r.1, r.2⟩

example :
    (parseEventStream "" none "data: a\ndata: b\n\n").messages =
      [{ data := some "a\nb" }] := by decide

example :
    (parseEventStream "" none "id: 7\nevent: temperature\ndata: 21\n\n").messages =
      [{ id := some "7", event := some "temperature", data := some "21" }] := by decide

example :
    (parseEventStream "da" none "ta: x\n\nid: 3").messageBuffer = "id: 3" := by decide

/-! ## Configuration (constructor defaults, source lines 100-116) -/

/-- The options resolved at construction.  The event filter, transformers,
handlers and the transport request configuration are dispatcher/transport
level values and are passed separately to the functions that use them. -/
structure Options where
  initialRetryDelay : Nat := 1000
  maxRetryDelay : Nat := 30000
  maxRetries : Nat := 10
  autoReconnect : Bool := true
  bufferSize : Nat := 1000
  batchEnabled : Bool := false
  batchSize : Nat := 10
deriving DecidableEq, Repr

def defaultOptions : Options := {}

/-- JS `this.options.bufferSize || 1000` (source line 387): 0 falls back to
the default. -/
def effBufferSize (opts : Options) : Nat :=
  if opts.bufferSize = 0 then 1000 else opts.bufferSize

/-- JS `this.options.batchConfig.size || 10` (source line 369). -/
def effBatchSize (opts : Options) : Nat :=
  if opts.batchSize = 0 then 10 else opts.batchSize

/-! ## Retry policy (calculateRetryDelay, source lines 160-163) -/

/-- calculateRetryDelay: min(initialRetryDelay * 2^retryCount, maxRetryDelay). -/
def calculateRetryDelay (opts : Options) (retryCount : Nat) : Nat :=
  min (opts.initialRetryDelay * 2 ^ retryCount) opts.maxRetryDelay

/-! ## Event dispatcher (shouldProcessEvent, transformData, emit;
source lines 236-263 and 279-295) -/

/-- shouldProcessEvent: a non-empty include list wins, else a non-empty
exclude list drops listed names, else everything passes.  An absent filter
list behaves exactly like an empty one in the source (both have falsy
length), so both are modelled as []. -/
def shouldProcessEvent (includeList excludeList : List String) (eventName : String) : Bool :=
  if includeList.length ≠ 0 then includeList.contains eventName
  else if excludeList.length ≠ 0 then ! excludeList.contains eventName
  else true

/-- transformData: fold the transformer pipeline; a transformer that throws
(modelled as returning none) is skipped and the previous value continues. -/
def transformData (transformers : List (α → Option α)) (data : α) : α :=
  transformers.foldl (fun result t => (t result).getD result) data

/-- this.eventHandlers.get(event): the subscription registry maps event names
to the insertion-ordered handlers of a Set (handlers are opaque; they are
identified by a Nat tag). -/
def lookupHandlers (registry : List (String × List Nat)) (event : String) :
    Option (List Nat) :=
  (registry.find? (fun p => p.1 == event)).map (·.2)

/-- emit (source lines 279-295): return early when the filter rejects the
name; otherwise look up the handler set, transform the payload once, and
deliver the transformed value to every handler.  A throwing handler is
isolated in the source and still counts as having received the delivery. -/
def emit (includeList excludeList : List String) (transformers : List (α → Option α))
    (registry : List (String × List Nat)) (event : String) (data : α) :
    List (Nat × α) :=
  if ! shouldProcessEvent includeList excludeList event then []
  else
    match lookupHandlers registry event with
    | none => []
    | some hs =>
      let transformed := transformData transformers data
      hs.map (fun h => (h, transformed))

/-! ## Bounded history buffer (source lines 378-389) -/

/-- The buffer update after one processed message: push the entry, then shift
the oldest out when the length exceeds the capacity. -/
def pushBuffer (cap : Nat) (buffer : List α) (entry : α) : List α :=
  let b := buffer ++ [entry]
  if cap < b.length then b.drop 1 else b

/-! ## Batch aggregator (processBatch and flushBatchBuffer,
source lines 227-234 and 470-476) -/

/-- One step of the processBatch while-loop, fuelled by the initial buffer
length (enough iterations whenever size ≥ 1; the source loop does not
terminate when size = 0, a configuration no claim exercises).  Each returned
call is the ("batch", items) argument pair later handed to emit. -/
def processBatchAux (size : Nat) : Nat → List α → List α × List (String × List α)
  | 0, buf => (buf, [])
  | fuel + 1, buf =>
    if size ≤ buf.length then
      let r := processBatchAux size fuel (buf.drop size)
      (r.1, ("batch", buf.take size) :: r.2)
    else (buf, [])

/-- processBatch (source lines 227-234): while the batch buffer holds at
least `size` items, splice off the first `size` and emit them as one batch. -/
def processBatch (size : Nat) (buf : List α) : List α × List (String × List α) :=
  processBatchAux size buf.length buf

/-- flushBatchBuffer (source lines 470-476): when non-empty, copy the whole
buffer, clear it, and emit the copy as a single "batch" event. -/
def flushBatchBuffer (batchBuffer : List α) : List α × List (String × List α) :=
  if 0 < batchBuffer.length then ([], [("batch", batchBuffer)])
  else (batchBuffer, [])

example : flushBatchBuffer [1, 2, 3] = ([], [("batch", [1, 2, 3])]) := by decide
example : processBatch 2 [1, 2, 3, 4, 5] =
    ([5], [("batch", [1, 2]), ("batch", [3, 4])]) := by decide

/-! ## Connection state machine (connect, source lines 297-435) -/

/-- ConnectionState (source lines 70-76). -/
inductive ConnectionState where
  | CONNECTING
  | CONNECTED
  | DISCONNECTED
  | RECONNECTING
  | ERROR
deriving DecidableEq, Repr

/-- SupaFlowError codes thrown by connect. -/
inductive ErrCode where
  | CONNECTION_ERROR
  | INVALID_RESPONSE
  | MAX_RETRIES_EXCEEDED
  | UNKNOWN_ERROR
deriving DecidableEq, Repr

/-- One entry of the bounded history (source lines 378-385); the wall-clock
timestamp from Date.now() is an external reading and is not modelled.  The
payload is carried as the framing-level data string; JSON decoding with its
raw-string fallback and the optional dataHandler are external pure maps on
the payload value and do not affect any claim. -/
structure BufferedEntry where
  data : Option String
  eventId : Option String
  retryCount : Nat
deriving DecidableEq, Repr

/-- The mutable instance fields of the client touched by connect. -/
structure ClientState where
  retryCount : Nat := 0
  connectionState : ConnectionState := .DISCONNECTED
  messageBuffer : String := ""
  lastEventId : Option String := none
  buffer : List BufferedEntry := []
  batchBuffer : List (Option String) := []
deriving DecidableEq, Repr

def initialState : ClientState := {}

/-- getState (source lines 460-462). -/
def getState (st : ClientState) : ConnectionState :=
  st.connectionState

/-- setState (source lines 212-215); the onStateChange observer callback is
external and carries no client state. -/
def setState (st : ClientState) (s : ConnectionState) : ClientState :=
  { st with connectionState := s }

/-- The this.emit invocations issued inside the read loop. -/
inductive EmitCall where
  | message (name : String) (payload : Option String)
  | batch (items : List (Option String))
deriving DecidableEq, Repr

/-- What the external fetch/read transport did during one connect call:
a non-ok response status, a null body, a rejection of fetch or of an early
await (any non-SupaFlowError throw before the body was obtained), or a body
whose reads deliver the given chunks and then either finish cleanly or throw
a (non-SupaFlowError) read error. -/
inductive FetchResult where
  | httpError (status : Nat)
  | nullBody
  | fetchFailure
  | stream (chunks : List String) (readError : Bool)
deriving DecidableEq, Repr

/-- The observable outcome of one connect() call: the final instance state,
the error it throws (if any), whether a delayed reconnect was scheduled via
setTimeout, the value getState() returns while the read loop is consuming
chunks (none when no stream was obtained), the messages decoded by the loop,
and the emit calls it issued. -/
structure ConnectOutput where
  final : ClientState
  thrown : Option ErrCode
  scheduledRetry : Bool
  stateDuringRead : Option ConnectionState
  delivered : List EventMessage
  emitCalls : List EmitCall
deriving DecidableEq, Repr

/-- The body of the per-message work in the read loop (source lines 351-392):
optional batching (push, then drain full batches), the emit of the message
under its event name (default "message"), and the bounded-history push. -/
def processMessage (opts : Options) (st : ClientState) (msg : EventMessage) :
    ClientState × List EmitCall :=
  let parsedData := msg.data
  let bb :=
    if opts.batchEnabled then
      let b := st.batchBuffer ++ [parsedData]
      if effBatchSize opts ≤ b.length then
        let r := processBatch (effBatchSize opts) b
        (r.1, r.2.map (fun c => EmitCall.batch c.2))
      else (b, ([] : List EmitCall))
    else (st.batchBuffer, [])
  let emitC := EmitCall.message (msg.event.getD "message") parsedData
  let entry : BufferedEntry := ⟨parsedData, msg.id, st.retryCount⟩
  let buffer' := pushBuffer (effBufferSize opts) st.buffer entry
  ({ st with batchBuffer := bb.1, buffer := buffer' }, bb.2 ++ [emitC])

/-- Fold processMessage over the messages completed in one chunk. -/
def processMessages (opts : Options) (st : ClientState) :
    List EventMessage → ClientState × List EmitCall
  | [] => (st, [])
  | m :: ms =>
    let r := processMessage opts st m
    let r2 := processMessages opts r.1 ms
    (r2.1, r.2 ++ r2.2)

/-- The read loop (source lines 339-394): decode each chunk through
parseEventStream and process the completed messages. -/
def readLoop (opts : Options) (st : ClientState) :
    List String → ClientState × List EventMessage × List EmitCall
  | [] => (st, [], [])
  | chunk :: rest =>
    let pr := parseEventStream st.messageBuffer st.lastEventId chunk
    let st1 := { st with messageBuffer := pr.messageBuffer,
                         lastEventId := pr.lastEventId }
    let r := processMessages opts st1 pr.messages
    let r2 := readLoop opts r.1 rest
    (r2.1, pr.messages ++ r2.2.1, r.2 ++ r2.2.2)

/-- The catch block's path for a failure that is not a SupaFlowError
(source lines 412-433); the ERROR state has already been set by the caller.
When the budget is exhausted a terminal MAX_RETRIES_EXCEEDED is thrown;
otherwise the counter is incremented and either a delayed retry is scheduled
(auto-reconnect on) or UNKNOWN_ERROR is thrown (auto-reconnect off). -/
def handleConnectError (opts : Options) (st : ClientState) : ConnectOutput :=
  if opts.maxRetries ≤ st.retryCount then
    { final := st, thrown := some .MAX_RETRIES_EXCEEDED, scheduledRetry := false,
      stateDuringRead := none, delivered := [], emitCalls := [] }
  else
    let st' := { st with retryCount := st.retryCount + 1 }
    if opts.autoReconnect then
      { final := st', thrown := none, scheduledRetry := true,
        stateDuringRead := none, delivered := [], emitCalls := [] }
    else
      { final := st', thrown := some .UNKNOWN_ERROR, scheduledRetry := false,
        stateDuringRead := none, delivered := [], emitCalls := [] }

/-- connect (source lines 297-435).  Entry sets CONNECTING.  A non-ok status
throws CONNECTION_ERROR and a null body INVALID_RESPONSE; both are
SupaFlowError instances, so the catch block sets ERROR and rethrows them
unconditionally (line 408-410), before any auto-reconnect or budget check.
When a body is obtained the retry counter is reset (line 334) and the read
loop runs; no setState call happens between entry and the end of the loop,
so getState() during the loop returns the value recorded in stateDuringRead.
On clean stream end a reconnect is scheduled when auto-reconnect is on
(lines 396-400) and only then is CONNECTED set (line 402).  A read error,
like a fetch rejection, takes the non-SupaFlowError catch path. -/
def connect (opts : Options) (st : ClientState) (fetch : FetchResult) :
    ConnectOutput :=
  let st0 := setState st .CONNECTING
  match fetch with
  | .httpError _ =>
    { final := setState st0 .ERROR, thrown := some .CONNECTION_ERROR,
      scheduledRetry := false, stateDuringRead := none,
      delivered := [], emitCalls := [] }
  | .nullBody =>
    { final := setState st0 .ERROR, thrown := some .INVALID_RESPONSE,
      scheduledRetry := false, stateDuringRead := none,
      delivered := [], emitCalls := [] }
  | .fetchFailure =>
    handleConnectError opts (setState st0 .ERROR)
  | .stream chunks readError =>
    let st1 := { st0 with retryCount := 0 }
    let during := getState st1
    let r := readLoop opts st1 chunks
    if readError then
      let out := handleConnectError opts (setState r.1 .ERROR)
      { out with stateDuringRead := some during,
                 delivered := r.2.1, emitCalls := r.2.2 }
    else
      { final := setState r.1 .CONNECTED, thrown := none,
        scheduledRetry := opts.autoReconnect, stateDuringRead := some during,
        delivered := r.2.1, emitCalls := r.2.2 }

example :
    (connect defaultOptions initialState (.stream ["data: x\n\n"] false)).delivered =
      [{ data := some "x" }] := by decide

example :
    (connect defaultOptions initialState (.httpError 500)).thrown =
      some .CONNECTION_ERROR := by decide

/-! ## Helper lemmas -/

theorem pushBuffer_length_le {α : Type} (cap : Nat) (buffer : List α) (e : α)
    (h : buffer.length ≤ cap) : (pushBuffer cap buffer e).length ≤ cap := by
  simp only [pushBuffer, List.length_append, List.length_cons, List.length_nil]
  split <;> simp [List.length_drop] <;> omega

theorem foldl_pushBuffer_no_evict {α : Type} (cap : Nat) :
    ∀ (l buf : List α), buf.length + l.length ≤ cap →
      l.foldl (pushBuffer cap) buf = buf ++ l := by
  intro l
  induction l with
  | nil => intro buf _; simp
  | cons a t ih =>
    intro buf h
    simp only [List.length_cons] at h
    have hpush : pushBuffer cap buf a = buf ++ [a] := by
      simp only [pushBuffer, List.length_append, List.length_cons, List.length_nil]
      split
      · omega
      · rfl
    rw [List.foldl_cons, hpush, ih]
    · simp
    · simp only [List.length_append, List.length_cons, List.length_nil]
      omega

theorem processMessage_retryCount (opts : Options) (st : ClientState)
    (m : EventMessage) : (processMessage opts st m).1.retryCount = st.retryCount := by
  simp [processMessage]

theorem processMessages_retryCount (opts : Options) :
    ∀ (ms : List EventMessage) (st : ClientState),
      (processMessages opts st ms).1.retryCount = st.retryCount := by
  intro ms
  induction ms with
  | nil => intro st; simp [processMessages]
  | cons m t ih =>
    intro st
    simp only [processMessages]
    rw [ih, processMessage_retryCount]

theorem readLoop_retryCount (opts : Options) :
    ∀ (chunks : List String) (st : ClientState),
      (readLoop opts st chunks).1.retryCount = st.retryCount := by
  intro chunks
  induction chunks with
  | nil => intro st; simp [readLoop]
  | cons c t ih =>
    intro st
    simp only [readLoop]
    rw [ih, processMessages_retryCount]

/-! ## Helper lemmas for the retry-line analysis -/

theorem ws_not_digit {c : Char} (h : jsWhitespace c = true) : c.isDigit = false := by
  simp only [jsWhitespace, Bool.or_eq_true, beq_iff_eq] at h
  rcases h with ((((h | h) | h) | h) | h) | h <;> subst h <;> decide

theorem digit_not_ws {c : Char} (h : c.isDigit = true) : jsWhitespace c = false := by
  cases hw : jsWhitespace c with
  | false => rfl
  | true => rw [ws_not_digit hw] at h; cases h

theorem digit_ne_nl {c : Char} (h : c.isDigit = true) : c ≠ '\n' ∧ c ≠ '\r' :=
  ⟨by rintro rfl; exact absurd h (by decide),
   by rintro rfl; exact absurd h (by decide)⟩

theorem dropWhile_ws_of_digits :
    ∀ (l : List Char), (∀ c ∈ l, c.isDigit = true) →
      l.dropWhile jsWhitespace = l
  | [], _ => rfl
  | c :: t, h => by
    have hc : c.isDigit = true := h c (by simp)
    simp [List.dropWhile_cons, digit_not_ws hc]

theorem takeWhile_digits_of_digits :
    ∀ (l : List Char), (∀ c ∈ l, c.isDigit = true) →
      l.takeWhile Char.isDigit = l
  | [], _ => rfl
  | c :: t, h => by
    have hc : c.isDigit = true := h c (by simp)
    have ht := takeWhile_digits_of_digits t (fun x hx => h x (by simp [hx]))
    simp [List.takeWhile_cons, hc, ht]

theorem mk_cons_ne_empty (c : Char) (l : List Char) : String.mk (c :: l) ≠ "" :=
  fun h => absurd (congrArg String.data h) (List.cons_ne_nil c l)

theorem jsTrim_space_digits (l : List Char) (h : ∀ c ∈ l, c.isDigit = true) :
    jsTrim (String.mk (' ' :: l)) = String.mk l := by
  have h1 : (' ' :: l).dropWhile jsWhitespace = l := by
    rw [List.dropWhile_cons, if_pos (by decide)]
    exact dropWhile_ws_of_digits l h
  have h2 : l.reverse.dropWhile jsWhitespace = l.reverse :=
    dropWhile_ws_of_digits l.reverse (fun c hc => h c (List.mem_reverse.mp hc))
  unfold jsTrim
  rw [show (String.mk (' ' :: l)).data = ' ' :: l from rfl, h1, h2,
    List.reverse_reverse]

theorem jsParseInt_digits (l : List Char) (hne : l ≠ [])
    (h : ∀ c ∈ l, c.isDigit = true) :
    jsParseInt (String.mk l) = some ((digitsToNat l : Nat) : Int) := by
  obtain ⟨c, t, rfl⟩ := List.exists_cons_of_ne_nil hne
  have hc : c.isDigit = true := h c (by simp)
  have hdw : (c :: t).dropWhile jsWhitespace = c :: t := dropWhile_ws_of_digits _ h
  have htw : (c :: t).takeWhile Char.isDigit = c :: t := takeWhile_digits_of_digits _ h
  simp only [jsParseInt]
  rw [hdw]
  split
  · rename_i heq
    injection heq with hc2 ht2
    rw [hc2] at hc
    exact absurd hc (by decide)
  · rename_i heq
    injection heq with hc2 ht2
    rw [hc2] at hc
    exact absurd hc (by decide)
  · rw [htw]
    simp

theorem handleField_retry (m : EventMessage) (lastId : Option String)
    (value : String) :
    handleField m lastId "retry" value =
      (match jsParseInt value with
       | some k => { m with retry := some k }
       | none => m, lastId) := by
  unfold handleField
  rw [if_neg (by decide), if_neg (by decide), if_neg (by decide), if_pos rfl]

theorem jsIndexOfColon_cons_ne (c : Char) (rest : List Char) (h : c ≠ ':') :
    jsIndexOfColon (c :: rest) = (jsIndexOfColon rest).map (· + 1) := by
  simp [jsIndexOfColon, h]

theorem jsIndexOfColon_cons_colon (rest : List Char) :
    jsIndexOfColon (':' :: rest) = some 0 := by
  simp [jsIndexOfColon]

theorem processLines_colon (lastId : Option String) (msg : EventMessage)
    (acc : List EventMessage) (line : String) (rest : List String) (i : Nat)
    (hne : line ≠ "") (hi : jsIndexOfColon line.data = some i) :
    processLines lastId msg acc (line :: rest) =
      (let field := jsTrim (String.mk (line.data.take i));
       let value := jsTrim (String.mk (line.data.drop (i + 1)));
       let r := handleField msg lastId field value;
       processLines r.2 r.1 acc rest) := by
  simp only [processLines]
  rw [if_neg hne, hi]

theorem processLines_blank_emit (lastId : Option String) (msg : EventMessage)
    (acc : List EventMessage) (rest : List String)
    (h : msgIsEmpty msg = false) :
    processLines lastId msg acc ("" :: rest) =
      processLines lastId {} (acc ++ [msg]) rest := by
  simp [processLines, h]

theorem splitLinesL_ne_nil (l : List Char) : splitLinesL l ≠ [] := by
  unfold splitLinesL
  split
  · simp
  · simp
  · simp
  · split <;> simp

theorem splitLinesL_cons_default (c : Char) (rest : List Char)
    (h1 : c ≠ '\n') (h2 : c ≠ '\r') :
    splitLinesL (c :: rest) =
      match splitLinesL rest with
      | [] => [[c]]
      | l :: ls => (c :: l) :: ls := by
  conv_lhs => unfold splitLinesL
  split
  · rename_i heq
    exact absurd heq (by simp)
  · rename_i heq
    injection heq with hc hr
    exact absurd hc h2
  · rename_i heq
    injection heq with hc hr
    exact absurd hc h1
  · rename_i heq
    injection heq with hc hr
    subst hc
    subst hr
    rfl

theorem splitLinesL_append (a : List Char) (b : List Char)
    (ha : ∀ c ∈ a, c ≠ '\n' ∧ c ≠ '\r') :
    splitLinesL (a ++ b) =
      (a ++ (splitLinesL b).headI) :: (splitLinesL b).tail := by
  induction a with
  | nil =>
    rcases hb : splitLinesL b with _ | ⟨x, xs⟩
    · exact absurd hb (splitLinesL_ne_nil b)
    · simp [hb]
  | cons c a' ih =>
    have hc := ha c (by simp)
    rw [List.cons_append, splitLinesL_cons_default c (a' ++ b) hc.1 hc.2]
    rw [ih (fun x hx => ha x (by simp [hx]))]
    simp

/-! ## Claim theorems -/

/-- C1: the claim says that feeding a valid event-stream text in arbitrary
chunks through parseEventStream yields the same record list as feeding it
whole.  This is false on the code: the in-progress record is a local
variable of each call, so the complete lines of a record whose terminating
blank line arrives in a later chunk are dropped.  On the text
"data: a\ndata: b\n\n" the whole-text parse yields one record with data
"a\nb", while the split at the first line boundary (carry-over buffer and
lastEventId handed between the calls exactly as the instance fields would
be) yields only the record with data "b". -/
theorem parse_chunkSplit_divergence :
    (parseEventStream "" none "data: a\ndata: b\n\n").messages =
        [{ data := some "a\nb" }] ∧
    (parseEventStream "" none "data: a\n").messages = [] ∧
    (parseEventStream "" none "data: a\n").messageBuffer = "" ∧
    (parseEventStream "" none "data: a\n").lastEventId = none ∧
    (parseEventStream "" none "data: b\n\n").messages = [{ data := some "b" }] ∧
    (parseEventStream "" none "data: a\n").messages ++
        (parseEventStream "" none "data: b\n\n").messages ≠
      (parseEventStream "" none "data: a\ndata: b\n\n").messages := by
  decide

/-- C2 counterexample: with auto-reconnect enabled (the default) and the
retry budget untouched, a structured connection error (non-ok status) and an
invalid-response (null body) failure are rethrown to the connect() caller,
no delayed retry is scheduled and no retry-budget unit is consumed — the
catch block rethrows any SupaFlowError before looking at autoReconnect. -/
theorem connect_structuredError_rethrown :
    defaultOptions.autoReconnect = true ∧
    initialState.retryCount < defaultOptions.maxRetries ∧
    (connect defaultOptions initialState (.httpError 500)).thrown =
        some .CONNECTION_ERROR ∧
    (connect defaultOptions initialState (.httpError 500)).scheduledRetry = false ∧
    (connect defaultOptions initialState (.httpError 500)).final.retryCount = 0 ∧
    (connect defaultOptions initialState .nullBody).thrown =
        some .INVALID_RESPONSE ∧
    (connect defaultOptions initialState .nullBody).scheduledRetry = false ∧
    (connect defaultOptions initialState .nullBody).final.retryCount = 0 := by
  decide

/-- C2 amended: when auto-reconnect is enabled and the retry budget is not
exhausted, only a failure that is not a SupaFlowError (a fetch or read
rejection) is absorbed into a scheduled delayed retry consuming one budget
unit; the structured connection-error and invalid-response failures are
always rethrown to the connect() caller without consuming budget or
scheduling a retry. -/
theorem connect_failure_handling (opts : Options) (st : ClientState)
    (hauto : opts.autoReconnect = true)
    (hbudget : st.retryCount < opts.maxRetries) :
    ((connect opts st .fetchFailure).thrown = none ∧
     (connect opts st .fetchFailure).scheduledRetry = true ∧
     (connect opts st .fetchFailure).final.retryCount = st.retryCount + 1) ∧
    (∀ status : Nat,
     (connect opts st (.httpError status)).thrown = some .CONNECTION_ERROR ∧
     (connect opts st (.httpError status)).scheduledRetry = false ∧
     (connect opts st (.httpError status)).final.retryCount = st.retryCount) ∧
    ((connect opts st .nullBody).thrown = some .INVALID_RESPONSE ∧
     (connect opts st .nullBody).scheduledRetry = false ∧
     (connect opts st .nullBody).final.retryCount = st.retryCount) := by
  have hnb : ¬ opts.maxRetries ≤ st.retryCount := by omega
  refine ⟨?_, fun status => ?_, ?_⟩ <;>
    simp [connect, handleConnectError, setState, hnb, hauto]

theorem connect_failure_handling_witness :
    ((connect defaultOptions initialState .fetchFailure).thrown = none ∧
     (connect defaultOptions initialState .fetchFailure).scheduledRetry = true ∧
     (connect defaultOptions initialState .fetchFailure).final.retryCount = 1) ∧
    (∀ status : Nat,
     (connect defaultOptions initialState (.httpError status)).thrown =
         some .CONNECTION_ERROR ∧
     (connect defaultOptions initialState (.httpError status)).scheduledRetry = false ∧
     (connect defaultOptions initialState (.httpError status)).final.retryCount = 0) ∧
    ((connect defaultOptions initialState .nullBody).thrown =
         some .INVALID_RESPONSE ∧
     (connect defaultOptions initialState .nullBody).scheduledRetry = false ∧
     (connect defaultOptions initialState .nullBody).final.retryCount = 0) :=
  connect_failure_handling defaultOptions initialState (by decide) (by decide)

/-- C3: the claim says the state is CONNECTED while the read loop consumes
chunks.  On the code, connect() sets CONNECTING on entry and issues no
further setState until after the read loop finishes, so getState() during
the loop returns CONNECTING even while records are being delivered;
CONNECTED is set only after the stream has ended (source line 402). -/
theorem connect_connected_only_after_stream_end :
    (connect defaultOptions initialState
        (.stream ["data: x\n\n"] false)).stateDuringRead =
      some ConnectionState.CONNECTING ∧
    getState (connect defaultOptions initialState
        (.stream ["data: x\n\n"] false)).final = ConnectionState.CONNECTED ∧
    (connect defaultOptions initialState
        (.stream ["data: x\n\n"] false)).delivered = [{ data := some "x" }] := by
  decide

/-- C4 counterexample: the retry counter is reset to zero as soon as the
response body is obtained (source line 334), even when the stream then ends
without delivering a single record; and it is incremented on a failed
attempt even when auto-reconnect is disabled (the increment at line 421
precedes the autoReconnect check). -/
theorem retryCount_reset_counterexample :
    (connect defaultOptions { retryCount := 3 } (.stream [] false)).delivered = [] ∧
    (connect defaultOptions { retryCount := 3 }
        (.stream [] false)).final.retryCount = 0 ∧
    (connect { defaultOptions with autoReconnect := false } { retryCount := 3 }
        .fetchFailure).final.retryCount = 4 ∧
    (connect { defaultOptions with autoReconnect := false } { retryCount := 3 }
        .fetchFailure).thrown = some .UNKNOWN_ERROR := by
  decide

/-- C4 amended: the retry counter is reset to zero exactly when a readable
response body is obtained — before any record is delivered — and it is
incremented on every failed connection attempt that is not a structured
SupaFlowError and is below the retry budget, whether or not auto-reconnect
is enabled; structured errors leave it unchanged. -/
theorem retryCount_behavior (opts : Options) (st : ClientState)
    (chunks : List String) (hbudget : st.retryCount < opts.maxRetries) :
    (connect opts st (.stream chunks false)).final.retryCount = 0 ∧
    (connect opts st .fetchFailure).final.retryCount = st.retryCount + 1 ∧
    (connect opts st (.httpError 500)).final.retryCount = st.retryCount ∧
    (connect opts st .nullBody).final.retryCount = st.retryCount := by
  have hnb : ¬ opts.maxRetries ≤ st.retryCount := by omega
  refine ⟨?_, ?_, ?_, ?_⟩
  · simp [connect, setState, getState, readLoop_retryCount]
  · cases hauto : opts.autoReconnect <;>
      simp [connect, handleConnectError, setState, hnb, hauto]
  · simp [connect, setState]
  · simp [connect, setState]

theorem retryCount_behavior_witness :
    (connect defaultOptions { retryCount := 9 }
        (.stream ["data: x\n\n"] false)).final.retryCount = 0 ∧
    (connect defaultOptions { retryCount := 9 } .fetchFailure).final.retryCount = 10 ∧
    (connect defaultOptions { retryCount := 9 }
        (.httpError 500)).final.retryCount = 9 ∧
    (connect defaultOptions { retryCount := 9 } .nullBody).final.retryCount = 9 :=
  retryCount_behavior defaultOptions { retryCount := 9 } ["data: x\n\n"] (by decide)

/-- C5 counterexample: a parsed "retry: 5" line produces a record whose retry
field is 5, but the computed reconnection delay after consuming that record
is 1000 (the configured initial delay), exactly as it is after consuming
"retry: 7" — the parsed value never reaches calculateRetryDelay, which reads
only the configured strategy and the attempt counter. -/
theorem retryHint_counterexample :
    (parseEventStream "" none "retry: 5\n\n").messages = [{ retry := some 5 }] ∧
    calculateRetryDelay defaultOptions
        (connect defaultOptions initialState
          (.stream ["retry: 5\n\n"] false)).final.retryCount = 1000 ∧
    calculateRetryDelay defaultOptions
        (connect defaultOptions initialState
          (.stream ["retry: 7\n\n"] false)).final.retryCount = 1000 ∧
    (1000 : Nat) ≠ 5 ∧ (1000 : Nat) ≠ 7 := by
  decide

/-- C5 amended: a complete `retry: <n>` line whose value is a digit string
sets the retry field of the emitted record to the parsed integer — and
nothing else: no client-level reconnect-delay hint exists, and the computed
reconnection delay is a pure function of the configured strategy and the
attempt count, unaffected by any parsed retry value. -/
theorem retry_field_only (v : String) (hne : v ≠ "")
    (hd : ∀ c ∈ v.data, c.isDigit = true) :
    (parseEventStream "" none ("retry: " ++ v ++ "\n\n")).messages =
        [{ retry := jsParseInt v }] ∧
    (jsParseInt v).isSome = true ∧
    (∀ (opts : Options) (n : Nat),
        calculateRetryDelay opts n =
          min (opts.initialRetryDelay * 2 ^ n) opts.maxRetryDelay) := by
  obtain ⟨vl⟩ := v
  have hvl : vl ≠ [] := fun h => hne (by rw [h])
  have hdl : ∀ c ∈ vl, c.isDigit = true := hd
  have hparse : jsParseInt (String.mk vl) = some ((digitsToNat vl : Nat) : Int) :=
    jsParseInt_digits vl hvl hdl
  refine ⟨?_, by simp [hparse], fun opts n => rfl⟩
  have hcolon : jsIndexOfColon
      ('r' :: 'e' :: 't' :: 'r' :: 'y' :: ':' :: ' ' :: vl) = some 5 := by
    rw [jsIndexOfColon_cons_ne _ _ (by decide),
      jsIndexOfColon_cons_ne _ _ (by decide),
      jsIndexOfColon_cons_ne _ _ (by decide),
      jsIndexOfColon_cons_ne _ _ (by decide),
      jsIndexOfColon_cons_ne _ _ (by decide), jsIndexOfColon_cons_colon]
    decide
  have hsplit : splitLinesL
      (('r' :: 'e' :: 't' :: 'r' :: 'y' :: ':' :: ' ' :: vl) ++ ['\n', '\n']) =
      [('r' :: 'e' :: 't' :: 'r' :: 'y' :: ':' :: ' ' :: vl), [], []] := by
    rw [splitLinesL_append]
    · rw [show splitLinesL ['\n', '\n'] = [[], [], []] from by decide]
      simp
    · intro c hc
      simp only [List.mem_cons] at hc
      rcases hc with rfl | rfl | rfl | rfl | rfl | rfl | rfl | hc
      · exact ⟨by decide, by decide⟩
      · exact ⟨by decide, by decide⟩
      · exact ⟨by decide, by decide⟩
      · exact ⟨by decide, by decide⟩
      · exact ⟨by decide, by decide⟩
      · exact ⟨by decide, by decide⟩
      · exact ⟨by decide, by decide⟩
      · exact digit_ne_nl (hdl c hc)
  rw [show ("retry: " ++ String.mk vl ++ "\n\n") =
      String.mk (('r' :: 'e' :: 't' :: 'r' :: 'y' :: ':' :: ' ' :: vl) ++
        ['\n', '\n']) from rfl]
  simp only [parseEventStream, splitLines]
  rw [show ("" ++ String.mk ((('r' :: 'e' :: 't' :: 'r' :: 'y' :: ':' :: ' ' ::
      vl) ++ ['\n', '\n']))).data =
      ('r' :: 'e' :: 't' :: 'r' :: 'y' :: ':' :: ' ' :: vl) ++ ['\n', '\n']
      from rfl]
  rw [hsplit]
  simp only [List.map, List.dropLast]
  rw [show String.mk ([] : List Char) = "" from rfl]
  rw [processLines_colon none {} []
      (String.mk ('r' :: 'e' :: 't' :: 'r' :: 'y' :: ':' :: ' ' :: vl))
      [""] 5 (mk_cons_ne_empty _ _) hcolon]
  rw [show (String.mk
      ('r' :: 'e' :: 't' :: 'r' :: 'y' :: ':' :: ' ' :: vl)).data.take 5 =
      ['r', 'e', 't', 'r', 'y'] from rfl]
  rw [show (String.mk
      ('r' :: 'e' :: 't' :: 'r' :: 'y' :: ':' :: ' ' :: vl)).data.drop (5 + 1) =
      ' ' :: vl from rfl]
  rw [show jsTrim (String.mk ['r', 'e', 't', 'r', 'y']) = "retry" from by decide]
  rw [jsTrim_space_digits vl hdl]
  show (processLines (handleField {} none "retry" (String.mk vl)).2
      (handleField {} none "retry" (String.mk vl)).1 [] [""]).2 =
    [{ retry := jsParseInt (String.mk vl) }]
  rw [handleField_retry, hparse]
  show (processLines none { retry := some ((digitsToNat vl : Nat) : Int) }
      [] [""]).2 = [{ retry := some ((digitsToNat vl : Nat) : Int) }]
  rw [processLines_blank_emit none _ [] [] (by simp [msgIsEmpty])]
  simp [processLines]

theorem retry_field_only_witness :
    (parseEventStream "" none ("retry: " ++ "250" ++ "\n\n")).messages =
        [{ retry := jsParseInt "250" }] ∧
    (jsParseInt "250").isSome = true ∧
    (∀ (opts : Options) (n : Nat),
        calculateRetryDelay opts n =
          min (opts.initialRetryDelay * 2 ^ n) opts.maxRetryDelay) :=
  retry_field_only "250" (by decide) (by decide)

/-- C6: the bounded history buffer never exceeds the configured capacity
after a processed message, and after capacity + 1 insertions starting from
an empty buffer the first inserted entry is gone while the order of the
remaining entries is preserved (FIFO eviction). -/
theorem buffer_bounded_fifo :
    (∀ (cap : Nat) (buffer : List BufferedEntry) (e : BufferedEntry),
        buffer.length ≤ cap → (pushBuffer cap buffer e).length ≤ cap) ∧
    (∀ (cap : Nat) (l : List BufferedEntry), 0 < cap → l.length = cap + 1 →
        l.foldl (pushBuffer cap) [] = l.drop 1) := by
  constructor
  · exact fun cap buffer e h => pushBuffer_length_le cap buffer e h
  · intro cap l hcap hlen
    have hdrop : (l.drop cap).length = 1 := by
      simp only [List.length_drop, hlen]
      omega
    obtain ⟨x, hx⟩ : ∃ x, l.drop cap = [x] := by
      match hd : l.drop cap with
      | [] => rw [hd] at hdrop; simp at hdrop
      | [x] => exact ⟨x, rfl⟩
      | x :: y :: t => rw [hd] at hdrop; simp at hdrop
    have htake : (l.take cap).length = cap := by
      simp only [List.length_take, hlen]
      omega
    have hsplit : l.take cap ++ [x] = l := by
      rw [← hx, List.take_append_drop]
    calc l.foldl (pushBuffer cap) []
        = (l.take cap ++ [x]).foldl (pushBuffer cap) [] := by rw [hsplit]
      _ = [x].foldl (pushBuffer cap) ((l.take cap).foldl (pushBuffer cap) []) := by
          rw [List.foldl_append]
      _ = [x].foldl (pushBuffer cap) (l.take cap) := by
          rw [foldl_pushBuffer_no_evict cap (l.take cap) [] (by simp [htake])]
          simp
      _ = pushBuffer cap (l.take cap) x := by simp
      _ = (l.take cap ++ [x]).drop 1 := by
          simp only [pushBuffer, List.length_append, List.length_cons,
            List.length_nil, htake]
          split
          · rfl
          · omega
      _ = l.drop 1 := by rw [hsplit]

theorem buffer_bounded_fifo_witness :
    (pushBuffer 2 [(⟨some "a", none, 0⟩ : BufferedEntry), ⟨some "b", none, 0⟩]
        ⟨some "c", none, 0⟩).length ≤ 2 ∧
    ([(⟨some "a", none, 0⟩ : BufferedEntry), ⟨some "b", none, 0⟩,
        ⟨some "c", none, 0⟩].foldl (pushBuffer 2) [] =
      [⟨some "b", none, 0⟩, ⟨some "c", none, 0⟩]) :=
  ⟨buffer_bounded_fifo.1 2 [⟨some "a", none, 0⟩, ⟨some "b", none, 0⟩]
      ⟨some "c", none, 0⟩ (by decide),
   buffer_bounded_fifo.2 2
      [⟨some "a", none, 0⟩, ⟨some "b", none, 0⟩, ⟨some "c", none, 0⟩]
      (by decide) (by decide)⟩

/-- C7: flushBatchBuffer on a non-empty batch buffer issues exactly one
"batch" emit whose payload is the whole pending list in insertion order, and
leaves the batch buffer empty. -/
theorem flushBatchBuffer_emits_all (buf : List (Option String)) (h : buf ≠ []) :
    (flushBatchBuffer buf).2 = [("batch", buf)] ∧
    (flushBatchBuffer buf).1 = [] := by
  have hl : 0 < buf.length := List.length_pos.mpr h
  simp [flushBatchBuffer, hl]

theorem flushBatchBuffer_emits_all_witness :
    (flushBatchBuffer [some "a", none, some "c"]).2 =
        [("batch", [some "a", none, some "c"])] ∧
    (flushBatchBuffer [some "a", none, some "c"]).1 = [] :=
  flushBatchBuffer_emits_all [some "a", none, some "c"] (by decide)

/-- C9: the reconnection delay is min(initialRetryDelay * 2^attempt,
maxRetryDelay), hence never exceeds the maximum; with the default strategy
(initial 1000, max 30000) the successive delays are 1000, 2000, 4000, 8000,
16000 and then stay capped at 30000 from the fifth failed attempt on. -/
theorem calculateRetryDelay_spec :
    (∀ (opts : Options) (n : Nat),
        calculateRetryDelay opts n =
            min (opts.initialRetryDelay * 2 ^ n) opts.maxRetryDelay ∧
        calculateRetryDelay opts n ≤ opts.maxRetryDelay) ∧
    calculateRetryDelay defaultOptions 0 = 1000 ∧
    calculateRetryDelay defaultOptions 1 = 2000 ∧
    calculateRetryDelay defaultOptions 2 = 4000 ∧
    calculateRetryDelay defaultOptions 3 = 8000 ∧
    calculateRetryDelay defaultOptions 4 = 16000 ∧
    ∀ n, 5 ≤ n → calculateRetryDelay defaultOptions n = 30000 := by
  refine ⟨fun opts n => ⟨rfl, Nat.min_le_right _ _⟩,
    by decide, by decide, by decide, by decide, by decide, ?_⟩
  intro n hn
  have h32 : (32 : Nat) ≤ 2 ^ n := by
    calc (32 : Nat) = 2 ^ 5 := by norm_num
      _ ≤ 2 ^ n := Nat.pow_le_pow_right (by norm_num) hn
  have hcap : (30000 : Nat) ≤ 1000 * 2 ^ n := by
    calc (30000 : Nat) ≤ 1000 * 32 := by norm_num
      _ ≤ 1000 * 2 ^ n := Nat.mul_le_mul_left 1000 h32
  simp [calculateRetryDelay, defaultOptions, Nat.min_eq_right hcap]

theorem calculateRetryDelay_spec_witness :
    calculateRetryDelay defaultOptions 8 = 30000 :=
  calculateRetryDelay_spec.2.2.2.2.2.2 8 (by norm_num)

/-- C8: with a non-empty include list, an event is delivered to handlers
exactly when its name is listed (a name off the list — such as "humidity"
with include = ["temperature"] — reaches no handler); with no include list
but a non-empty exclude list, listed names are dropped and all others are
delivered; with neither, everything passes and is delivered to every
registered handler after the transformer pipeline. -/
theorem eventFilter_delivery (includeList excludeList : List String)
    (ts : List (Option String → Option (Option String)))
    (registry : List (String × List Nat)) (name : String) (data : Option String) :
    ((includeList ≠ [] ∧ name ∉ includeList) →
        emit includeList excludeList ts registry name data = []) ∧
    ((includeList = [] ∧ excludeList ≠ [] ∧ name ∈ excludeList) →
        emit includeList excludeList ts registry name data = []) ∧
    (((includeList ≠ [] ∧ name ∈ includeList) ∨
      (includeList = [] ∧ excludeList ≠ [] ∧ name ∉ excludeList) ∨
      (includeList = [] ∧ excludeList = [])) →
        ∀ hs, lookupHandlers registry name = some hs →
          emit includeList excludeList ts registry name data =
            hs.map (fun h => (h, transformData ts data))) := by
  refine ⟨?_, ?_, ?_⟩
  · rintro ⟨h1, h2⟩
    have hl : includeList.length ≠ 0 := by
      simpa [List.length_eq_zero] using h1
    simp [emit, shouldProcessEvent, hl, h2]
  · rintro ⟨h1, h2, h3⟩
    have hl : excludeList.length ≠ 0 := by
      simpa [List.length_eq_zero] using h2
    simp [emit, shouldProcessEvent, h1, hl, h3]
  · intro hpass hs hlook
    have hspe : shouldProcessEvent includeList excludeList name = true := by
      rcases hpass with ⟨h1, h2⟩ | ⟨h1, h2, h3⟩ | ⟨h1, h2⟩
      · have hl : includeList.length ≠ 0 := by
          simpa [List.length_eq_zero] using h1
        simp [shouldProcessEvent, hl, h2]
      · have hl : excludeList.length ≠ 0 := by
          simpa [List.length_eq_zero] using h2
        simp [shouldProcessEvent, h1, hl, h3]
      · simp [shouldProcessEvent, h1, h2]
    simp [emit, hspe, hlook]

theorem eventFilter_delivery_witness :
    emit ["temperature"] [] ([] : List (Option String → Option (Option String)))
      [("humidity", [0]), ("temperature", [1])] "humidity" (some "40") = [] :=
  (eventFilter_delivery ["temperature"] [] [] [("humidity", [0]), ("temperature", [1])]
      "humidity" (some "40")).1 ⟨by decide, by decide⟩

/-- Every emit call issued by the processBatch loop carries the event name
"batch". -/
theorem processBatchAux_calls_batch {α : Type} (size : Nat) :
    ∀ (fuel : Nat) (buf : List α) (c : String × List α),
      c ∈ (processBatchAux size fuel buf).2 → c.1 = "batch" := by
  intro fuel
  induction fuel with
  | zero => intro buf c hc; simp [processBatchAux] at hc
  | succ n ih =>
    intro buf c hc
    simp only [processBatchAux] at hc
    split at hc
    · rcases List.mem_cons.mp hc with h | h
      · rw [h]
      · exact ih _ c h
    · simp at hc

/-- With a positive batch size, the processBatch loop drains the buffer
below the batch size (the source condition keeps splicing while at least
`size` items remain). -/
theorem processBatchAux_length_lt {α : Type} (size : Nat) (hs : 0 < size) :
    ∀ (fuel : Nat) (buf : List α), buf.length ≤ fuel →
      (processBatchAux size fuel buf).1.length < size := by
  intro fuel
  induction fuel with
  | zero =>
    intro buf h
    simp only [processBatchAux]
    show buf.length < size
    omega
  | succ n ih =>
    intro buf h
    simp only [processBatchAux]
    split
    · apply ih
      simp only [List.length_drop]
      omega
    · rename_i hcond
      show buf.length < size
      omega

/-- C10: batch delivery goes through the same emit pipeline as ordinary
events.  The batch buffer is cleared by flushBatchBuffer (and drained below
the batch size by processBatch) regardless of the filter, but each issued
"batch" call is subject to the include/exclude filter and the transformer
pipeline inside emit: when the name "batch" does not pass the filter the
pending items are discarded without reaching any handler, and when it does
pass, every registered "batch" handler receives the transformed batch. -/
theorem batch_through_filter (includeList excludeList : List String)
    (ts : List (List (Option String) → Option (List (Option String))))
    (registry : List (String × List Nat)) (buf : List (Option String))
    (size : Nat) (hs : 0 < size) :
    (flushBatchBuffer buf).1 = [] ∧
    (processBatch size buf).1.length < size ∧
    (shouldProcessEvent includeList excludeList "batch" = false →
      ((flushBatchBuffer buf).2.map
          (fun c => emit includeList excludeList ts registry c.1 c.2)).flatten = [] ∧
      ((processBatch size buf).2.map
          (fun c => emit includeList excludeList ts registry c.1 c.2)).flatten = []) ∧
    (shouldProcessEvent includeList excludeList "batch" = true →
      ∀ hls, lookupHandlers registry "batch" = some hls → buf ≠ [] →
        (flushBatchBuffer buf).2.map
            (fun c => emit includeList excludeList ts registry c.1 c.2) =
          [hls.map (fun h => (h, transformData ts buf))]) := by
  refine ⟨?_, ?_, ?_, ?_⟩
  · simp only [flushBatchBuffer]
    split
    · rfl
    · rename_i hlen
      show buf = []
      exact List.length_eq_zero.mp (by omega)
  · exact processBatchAux_length_lt size hs buf.length buf le_rfl
  · intro hfail
    constructor
    · simp only [flushBatchBuffer]
      split
      · simp [emit, hfail]
      · simp
    · rw [List.flatten_eq_nil_iff]
      intro l hl
      rw [List.mem_map] at hl
      obtain ⟨c, hc, rfl⟩ := hl
      have hb := processBatchAux_calls_batch size buf.length buf c hc
      rw [hb]
      simp [emit, hfail]
  · intro hpass hls hlook hne
    have hlen : 0 < buf.length := List.length_pos.mpr hne
    simp [flushBatchBuffer, hlen, emit, hpass, hlook]

theorem batch_through_filter_witness :
    (flushBatchBuffer [some "a", some "b"]).1 = [] ∧
    ((flushBatchBuffer [some "a", some "b"]).2.map
        (fun c => emit ["temperature"] []
          ([] : List (List (Option String) → Option (List (Option String))))
          [("batch", [0])] c.1 c.2)).flatten = [] :=
  ⟨(batch_through_filter ["temperature"] [] [] [("batch", [0])]
      [some "a", some "b"] 5 (by decide)).1,
   ((batch_through_filter ["temperature"] [] [] [("batch", [0])]
      [some "a", some "b"] 5 (by decide)).2.2.1 (by decide)).1⟩

end SupaFlow
